import Mathlib

/-!
Shallow embedding of the country-finance aggregation pipeline in
`src/streamlit_app.py`: currency-code normalization, the exchange-rate
resolver with its ordered provider fallback, the caller-side inversion
fallback, the market-index resolver with ticker-symbol guessing, the
model-response JSON extraction, and the geocoding wrapper.  External
collaborators (HTTP providers, the generative model, the market-data
library, the JSON parser) are modelled as explicit inputs, exceptions
raised by them as explicit error outcomes, and machine floats as
rationals.
-/

/-- ASCII-letter test, mirroring the regex character class used by
`re.sub` in `normalize_currency_code` (kept characters are the ASCII
codes of `A`-`Z` and `a`-`z`). -/
def charIsAsciiAlpha (c : Char) : Bool :=
  (65 ≤ c.toNat && c.toNat ≤ 90) || (97 ≤ c.toNat && c.toNat ≤ 122)

/-- ASCII uppercasing of one character, mirroring Python `str.upper` on
the ASCII letters that survive the strip. -/
def upChar (c : Char) : Char :=
  if 97 ≤ c.toNat && c.toNat ≤ 122 then Char.ofNat (c.toNat - 32) else c

/-- The fixed reference list of common currency codes in
`normalize_currency_code`; both branches of the membership test return
the same string, so the list is awareness-only. -/
def commonCodes : List String :=
  ["USD", "EUR", "GBP", "JPY", "AUD", "CAD", "CHF", "CNY", "INR",
   "KRW", "MXN", "BRL", "SGD", "HKD", "THB", "RUB", "ZAR", "NZD"]

/-- `normalize_currency_code` (src/streamlit_app.py lines 204-223):
empty-input guard, strip non-letters, uppercase, truncate to three
characters, then the inert membership test against `commonCodes`. -/
def normalize_currency_code (code : String) : String :=
  if code = "" then ""
  else
    let cleaned := List.asString (((code.data.filter charIsAsciiAlpha).map upChar).take 3)
    if cleaned ∈ commonCodes then cleaned else cleaned

theorem charToNat_ofNat (n : Nat) (h : n < 55296) : (Char.ofNat n).toNat = n := by
  have hv : n.isValidChar := Or.inl h
  rw [Char.ofNat, dif_pos hv]
  rfl

theorem upChar_range (c : Char) (h : charIsAsciiAlpha c = true) :
    65 ≤ (upChar c).toNat ∧ (upChar c).toNat ≤ 90 := by
  have h' : (65 ≤ c.toNat ∧ c.toNat ≤ 90) ∨ (97 ≤ c.toNat ∧ c.toNat ≤ 122) := by
    simpa [charIsAsciiAlpha] using h
  unfold upChar
  split
  next hb =>
    have hb' : 97 ≤ c.toNat ∧ c.toNat ≤ 122 := by simpa using hb
    rw [charToNat_ofNat _ (by omega)]
    omega
  next hb =>
    have hb' : ¬ (97 ≤ c.toNat ∧ c.toNat ≤ 122) := by simpa using hb
    omega

theorem normalizeCode_eq (s : String) :
    normalize_currency_code s =
      List.asString (((s.data.filter charIsAsciiAlpha).map upChar).take 3) := by
  unfold normalize_currency_code
  split
  next hs => subst hs; rfl
  next => rw [ite_self]

/-- C4: for every input, the output of `normalize_currency_code` has
length at most 3, consists only of uppercase ASCII letters `A`-`Z`, is
empty iff the input contains no alphabetic character, and equals the
input with non-letters stripped, uppercased, truncated to 3 characters;
no code outside `commonCodes` is rejected. -/
theorem c4_normalize_currency_code (s : String) :
    (normalize_currency_code s).length ≤ 3 ∧
    (∀ c ∈ (normalize_currency_code s).data, 65 ≤ c.toNat ∧ c.toNat ≤ 90) ∧
    ((normalize_currency_code s = "") ↔ ∀ c ∈ s.data, charIsAsciiAlpha c = false) ∧
    normalize_currency_code s =
      List.asString (((s.data.filter charIsAsciiAlpha).map upChar).take 3) := by
  have he := normalizeCode_eq s
  refine ⟨?_, ?_, ?_, he⟩
  · rw [he]
    show (((s.data.filter charIsAsciiAlpha).map upChar).take 3).length ≤ 3
    rw [List.length_take]
    omega
  · intro c hc
    rw [he] at hc
    have hc' : c ∈ (s.data.filter charIsAsciiAlpha).map upChar :=
      List.mem_of_mem_take hc
    rcases List.mem_map.mp hc' with ⟨d, hd, rfl⟩
    exact upChar_range d (List.mem_filter.mp hd).2
  · rw [he]
    constructor
    · intro h0 c hc
      have hnil : ((s.data.filter charIsAsciiAlpha).map upChar).take 3 = [] := by
        have hd := congrArg String.data h0
        simpa [List.asString] using hd
      have hfil : s.data.filter charIsAsciiAlpha = [] := by
        rcases List.take_eq_nil_iff.mp hnil with h3 | hmap
        · omega
        · exact List.map_eq_nil_iff.mp hmap
      have := List.filter_eq_nil_iff.mp hfil c hc
      simpa using this
    · intro hall
      have hfil : s.data.filter charIsAsciiAlpha = [] :=
        List.filter_eq_nil_iff.mpr (fun a ha => by simp [hall a ha])
      rw [hfil]
      rfl

/-- The main flow's currency lookup step (src/streamlit_app.py lines
269-279): the extracted raw code is normalized and is used as the
base-currency key only when the normalized string is non-empty. -/
def currencyKey (rawCode : String) : Option String :=
  let c := normalize_currency_code rawCode
  if c = "" then none else some c

/-- Claim C5 as stated: every key actually handed to the exchange-rate
resolver consists of exactly three uppercase letters. -/
def c5Statement (rawCode : String) : Prop :=
  ∀ k, currencyKey rawCode = some k →
    k.length = 3 ∧ ∀ c ∈ k.data, 65 ≤ c.toNat ∧ c.toNat ≤ 90

/-- C5 counterexample: the extractor code "ab" normalizes to "AB",
which is non-empty and therefore used as the lookup key, yet has
length 2 — the guard in the main flow only checks non-emptiness. -/
theorem c5_counterexample : ¬ c5Statement "ab" := by
  intro h
  have h2 := (h "AB" (by decide)).1
  exact absurd h2 (by decide)

/-- C5 amended: every key used for the lookup is a non-empty string of
at most three uppercase letters A-Z, and it has exactly three letters
whenever the extractor-provided code contains at least three alphabetic
characters. -/
theorem c5_amended (rawCode k : String) (h : currencyKey rawCode = some k) :
    (1 ≤ k.length ∧ k.length ≤ 3) ∧
    (∀ c ∈ k.data, 65 ≤ c.toNat ∧ c.toNat ≤ 90) ∧
    (3 ≤ (rawCode.data.filter charIsAsciiAlpha).length → k.length = 3) := by
  have hk : k = normalize_currency_code rawCode ∧ normalize_currency_code rawCode ≠ "" := by
    by_cases hz : normalize_currency_code rawCode = ""
    · simp [currencyKey, hz] at h
    · simp [currencyKey, hz] at h
      exact ⟨h.symm, hz⟩
  have he := normalizeCode_eq rawCode
  have hlen : k.length = min 3 ((rawCode.data.filter charIsAsciiAlpha).length) := by
    rw [hk.1, he]
    show (((rawCode.data.filter charIsAsciiAlpha).map upChar).take 3).length = _
    rw [List.length_take, List.length_map]
  refine ⟨⟨?_, ?_⟩, ?_, ?_⟩
  · have hne : k ≠ "" := hk.1 ▸ hk.2
    have : k.length ≠ 0 := by
      intro h0
      exact hne (String.ext (List.length_eq_zero.mp h0))
    omega
  · omega
  · intro c hc
    rw [hk.1, he] at hc
    have hc' : c ∈ (rawCode.data.filter charIsAsciiAlpha).map upChar :=
      List.mem_of_mem_take hc
    rcases List.mem_map.mp hc' with ⟨d, hd, rfl⟩
    exact upChar_range d (List.mem_filter.mp hd).2
  · intro h3
    omega

theorem c5_amended_witness :
    currencyKey "usd123" = some "USD" ∧
    ((1 ≤ "USD".length ∧ "USD".length ≤ 3) ∧
     (∀ c ∈ "USD".data, 65 ≤ c.toNat ∧ c.toNat ≤ 90) ∧
     (3 ≤ ("usd123".data.filter charIsAsciiAlpha).length → "USD".length = 3)) :=
  ⟨by decide, c5_amended "usd123" "USD" (by decide)⟩

/-- Needle-at-front test over character lists: the first argument occurs
at the head of the second. -/
def hasPre (needle hay : List Char) : Bool :=
  match needle, hay with
  | [], _ => true
  | _ :: _, [] => false
  | n :: ns, h :: hs => n == h && hasPre ns hs

/-- Substring occurrence over character lists, mirroring the Python
`in` operator on strings. -/
def hasSub (needle : List Char) : List Char → Bool
  | [] => hasPre needle []
  | c :: rest => hasPre needle (c :: rest) || hasSub needle rest

/-- Substring occurrence on strings: `strHasSub n h` means `n in h`. -/
def strHasSub (needle hay : String) : Bool :=
  hasSub needle.data hay.data

/-- ASCII uppercasing of a whole string, mirroring `name.upper()` in
`get_stock_index_values`. -/
def upStr (s : String) : String :=
  List.asString (s.data.map upChar)

/-- The fixed ordered table of index-name fragments to canonical Yahoo
tickers (src/streamlit_app.py lines 167-190); the S&P entry carries two
alternative fragments joined by `or` in the source. -/
def guessTable : List (List String × String) :=
  [(["NIFTY"], "^NSEI"), (["SENSEX"], "^BSESN"), (["NIKKEI"], "^N225"),
   (["FTSE"], "^FTSE"), (["DOW"], "^DJI"), (["S&P", "SPX"], "^GSPC"),
   (["NASDAQ"], "^IXIC"), (["KOSPI"], "^KS11"), (["SHANGHAI"], "000001.SS"),
   (["HANG SENG"], "^HSI"), (["DAX"], "^GDAXI"), (["CAC"], "^FCHI")]

/-- First-match-wins scan of the fragment table against the uppercased
index name. -/
def firstGuess (nameUp : String) : List (List String × String) → Option String
  | [] => none
  | (frags, sym) :: rest =>
    if frags.any (fun f => strHasSub f nameUp) then some sym
    else firstGuess nameUp rest

/-- The ticker-symbol guess of `get_stock_index_values` (lines 164-190):
a symbol containing a caret or a dot is used unchanged; otherwise the
first fragment of the fixed table matching the uppercased name wins;
with no match the original symbol is used verbatim. -/
def guess_ticker_symbol (name symbol : String) : String :=
  if symbol.data.contains '^' || symbol.data.contains '.' then symbol
  else
    match firstGuess (upStr name) guessTable with
    | some sym => sym
    | none => symbol

/-- Claim C6 as stated: qualified symbols pass through unchanged, the
first matching fragment of the fixed table wins, an unmatched name
leaves the symbol verbatim, and — as the claim words it — a name
containing "Nikkei" in any case always maps to "^N225". -/
def c6Statement (name symbol : String) : Prop :=
  ((symbol.data.contains '^' || symbol.data.contains '.') = true →
      guess_ticker_symbol name symbol = symbol) ∧
  ((symbol.data.contains '^' || symbol.data.contains '.') = false →
    (∀ sym, firstGuess (upStr name) guessTable = some sym →
        guess_ticker_symbol name symbol = sym) ∧
    (firstGuess (upStr name) guessTable = none →
        guess_ticker_symbol name symbol = symbol) ∧
    (strHasSub "NIKKEI" (upStr name) = true →
        guess_ticker_symbol name symbol = "^N225"))

/-- C6 counterexample: the name "NIFTY NIKKEI" contains "NIKKEI", but
the NIFTY fragment is tested first, so the unqualified symbol "X" maps
to "^NSEI" rather than "^N225". -/
theorem c6_counterexample : ¬ c6Statement "NIFTY NIKKEI" "X" := by
  intro h
  have h3 := (h.2 (by decide)).2.2 (by decide)
  exact absurd h3 (by decide)

/-- C6 amended: as claimed, except that a name containing "Nikkei" (any
case) maps to "^N225" only provided no earlier fragment of the table
(NIFTY, SENSEX) also matches the name. -/
theorem c6_amended (name symbol : String) :
    ((symbol.data.contains '^' || symbol.data.contains '.') = true →
        guess_ticker_symbol name symbol = symbol) ∧
    ((symbol.data.contains '^' || symbol.data.contains '.') = false →
      (∀ sym, firstGuess (upStr name) guessTable = some sym →
          guess_ticker_symbol name symbol = sym) ∧
      (firstGuess (upStr name) guessTable = none →
          guess_ticker_symbol name symbol = symbol) ∧
      (strHasSub "NIKKEI" (upStr name) = true →
       strHasSub "NIFTY" (upStr name) = false →
       strHasSub "SENSEX" (upStr name) = false →
          guess_ticker_symbol name symbol = "^N225")) := by
  constructor
  · intro hq
    unfold guess_ticker_symbol
    rw [if_pos hq]
  · intro hq
    have hq' : ¬ ((symbol.data.contains '^' || symbol.data.contains '.') = true) := by
      rw [hq]
      exact Bool.false_ne_true
    refine ⟨?_, ?_, ?_⟩
    · intro sym hfg
      unfold guess_ticker_symbol
      rw [if_neg hq', hfg]
    · intro hfg
      unfold guess_ticker_symbol
      rw [if_neg hq', hfg]
    · intro hnik hnif hsen
      have hfg : firstGuess (upStr name) guessTable = some "^N225" := by
        simp [firstGuess, guessTable, hnik, hnif, hsen]
      unfold guess_ticker_symbol
      rw [if_neg hq', hfg]

theorem c6_amended_witness :
    guess_ticker_symbol "Nikkei 225" "N225" = "^N225" :=
  ((c6_amended "Nikkei 225" "N225").2 (by decide)).2.2
    (by decide) (by decide) (by decide)

/-- Outcome of one FX provider HTTP call: a raised transport error, or a
completed response carrying an HTTP status and a body whose `rates`
mapping either parses into an association list or fails to parse (an
`Except.error` body models `response.json()` raising, which only
happens on the status-200 paths where it is called). -/
inductive FxOutcome where
  | exc : FxOutcome
  | resp : Nat → Except Unit (List (String × ℚ)) → FxOutcome

/-- Lookup in a parsed `rates` mapping, mirroring `rates.get(k)`; key
presence (`k in rates`) is `isSome` of this. -/
def lookupRate (rates : List (String × ℚ)) (k : String) : Option ℚ :=
  (rates.find? (fun kv => kv.1 == k)).map (fun kv => kv.2)

/-- The four-target dictionary built by the primary and secondary
branches of `get_exchange_rates` (src/streamlit_app.py lines 102-107
and 118-123): each target maps to `rates.get(k)`. -/
def fxPick (rates : List (String × ℚ)) : List (String × Option ℚ) :=
  [("USD", lookupRate rates "USD"), ("INR", lookupRate rates "INR"),
   ("GBP", lookupRate rates "GBP"), ("EUR", lookupRate rates "EUR")]

/-- The tertiary (Frankfurter) synthesis for a USD base (lines 134-139):
USD pinned to 1.0 plus the fetched INR/GBP/EUR rates. -/
def usdSynth (rates : List (String × ℚ)) : List (String × Option ℚ) :=
  [("USD", some 1), ("INR", lookupRate rates "INR"),
   ("GBP", lookupRate rates "GBP"), ("EUR", lookupRate rates "EUR")]

/-- The primary branch's completeness test (line 101): `rates` truthy
and all four target keys present. -/
def allFourPresent (rates : List (String × ℚ)) : Bool :=
  decide (rates ≠ []) &&
    (["USD", "INR", "GBP", "EUR"].all (fun k => (lookupRate rates k).isSome))

/-- Continuation of `get_exchange_rates` after the secondary provider
came back with a non-200 status (lines 125-143): the tertiary is tried
only for a USD base; on its transport error or unparseable 200 body the
surrounding `except` yields the empty mapping. -/
def afterSecondary (code : String) (t : FxOutcome) : List (String × Option ℚ) :=
  if code = "USD" then
    match t with
    | .exc => []
    | .resp st body =>
      if st = 200 then
        match body with
        | .error _ => []
        | .ok trates => usdSynth trates
      else []
  else []

/-- Continuation of `get_exchange_rates` after the primary returned
without the four targets (lines 109-123): a status-200 secondary
response returns whatever subset its rates carry. -/
def afterPrimary (code : String) (s t : FxOutcome) : List (String × Option ℚ) :=
  match s with
  | .exc => []
  | .resp st body =>
    if st = 200 then
      match body with
      | .error _ => []
      | .ok srates => fxPick srates
    else afterSecondary code t

/-- `get_exchange_rates` (src/streamlit_app.py lines 89-147), with the
three provider calls passed in as explicit outcomes; the Python `except`
wrapping the whole body maps every raised error to the empty mapping at
the point it occurs. -/
def get_exchange_rates (code : String) (p s t : FxOutcome) : List (String × Option ℚ) :=
  match p with
  | .exc => []
  | .resp st body =>
    if st = 200 then
      match body with
      | .error _ => []
      | .ok prates =>
        if allFourPresent prates then fxPick prates
        else afterPrimary code s t
    else afterPrimary code s t

/-- The successful-response view used by claim C1: a completed
status-200 response whose body parsed to a rates mapping. -/
def succRates : FxOutcome → Option (List (String × ℚ))
  | .resp 200 (.ok r) => some r
  | _ => none

/-- The secondary/tertiary part of claim C1 as stated. -/
def c1TailStatement (code : String) (s t : FxOutcome)
    (r : List (String × Option ℚ)) : Bool :=
  match succRates s with
  | some sr => decide (r = fxPick sr)
  | none =>
    if code == "USD" then
      match succRates t with
      | some tr => decide (r = usdSynth tr)
      | none => decide (r = [])
    else decide (r = [])

/-- Claim C1 as stated: the resolver returns the primary's four rates
iff the primary response is successful with all four targets present;
otherwise the secondary's subset if it succeeds; otherwise, for USD
only, the tertiary synthesis; otherwise the empty mapping. -/
def c1Statement (code : String) (p s t : FxOutcome) : Bool :=
  let r := get_exchange_rates code p s t
  match succRates p with
  | some pr =>
    if allFourPresent pr then decide (r = fxPick pr)
    else c1TailStatement code s t r
  | none => c1TailStatement code s t r

/-- C1 counterexample: when the primary call raises a transport error
and the secondary would answer with a usable status-200 subset, the
code returns the empty mapping without consulting the secondary, while
the claimed ordered strategy requires the secondary's subset. -/
theorem c1_counterexample :
    c1Statement "JPY" FxOutcome.exc
      (FxOutcome.resp 200 (Except.ok [("USD", 2), ("INR", 3)]))
      FxOutcome.exc = false := by
  decide

/-- Classification of one provider call as the amended claim C1 words
it: `raised` covers a transport error and an unparseable status-200
body (the only states in which `response.json()` runs and can throw),
`good` is a parsed status-200 response, `bad` a completed non-200
response. -/
inductive FxClass where
  | raised : FxClass
  | good : List (String × ℚ) → FxClass
  | bad : FxClass

def classify : FxOutcome → FxClass
  | .exc => .raised
  | .resp st body =>
    if st = 200 then
      match body with
      | .ok r => .good r
      | .error _ => .raised
    else .bad

/-- Modelled from the amended claim C1, tertiary stage: consulted for a
USD base only; a raised tertiary call aborts with the empty mapping. -/
def c1AmendedTert (code : String) (t : FxOutcome) : List (String × Option ℚ) :=
  if code = "USD" then
    match classify t with
    | .raised => []
    | .good tr => usdSynth tr
    | .bad => []
  else []

/-- Modelled from the amended claim C1, secondary stage: a raised call
aborts with the empty mapping; a good secondary returns its subset;
otherwise the tertiary stage runs. -/
def c1AmendedTail (code : String) (s t : FxOutcome) : List (String × Option ℚ) :=
  match classify s with
  | .raised => []
  | .good sr => fxPick sr
  | .bad => c1AmendedTert code t

/-- Modelled from the amended claim C1: the ordered strategy of the
claim on completed responses, with the amendment that a raised call at
whichever provider is currently queried immediately yields the empty
mapping instead of falling through to the next provider. -/
def c1AmendedModel (code : String) (p s t : FxOutcome) : List (String × Option ℚ) :=
  match classify p with
  | .raised => []
  | .good pr => if allFourPresent pr then fxPick pr else c1AmendedTail code s t
  | .bad => c1AmendedTail code s t

theorem afterSecondary_eq (code : String) (t : FxOutcome) :
    afterSecondary code t = c1AmendedTert code t := by
  by_cases hc : code = "USD"
  · cases t with
    | exc => simp [afterSecondary, c1AmendedTert, classify, hc]
    | resp st body =>
      by_cases h : st = 200
      · subst h
        cases body <;> simp [afterSecondary, c1AmendedTert, classify, hc]
      · simp [afterSecondary, c1AmendedTert, classify, hc, h]
  · simp [afterSecondary, c1AmendedTert, hc]

theorem afterPrimary_eq (code : String) (s t : FxOutcome) :
    afterPrimary code s t = c1AmendedTail code s t := by
  cases s with
  | exc => rfl
  | resp st body =>
    by_cases h : st = 200
    · subst h
      cases body <;> rfl
    · simp only [afterPrimary, c1AmendedTail, classify, if_neg h]
      exact afterSecondary_eq code t

/-- C1 amended: for every currency code, the resolver follows the
claimed ordered fallback strategy on completed responses — primary
rates directly iff the primary succeeds with all four targets present,
else the secondary's present subset, else for USD only the tertiary
synthesis, else the empty mapping — except that a raised exception at
whichever provider is currently queried (transport failure, or an
unparseable status-200 body) immediately yields the empty mapping
instead of falling through to the next provider; the resolver never
raises. -/
theorem c1_amended (code : String) (p s t : FxOutcome) :
    get_exchange_rates code p s t = c1AmendedModel code p s t := by
  cases p with
  | exc => rfl
  | resp st body =>
    by_cases h : st = 200
    · subst h
      cases body with
      | error e => rfl
      | ok prates =>
        by_cases h4 : allFourPresent prates = true
        · simp [get_exchange_rates, c1AmendedModel, classify, h4]
        · have h4' : allFourPresent prates = false := eq_false_of_ne_true h4
          simp only [get_exchange_rates, c1AmendedModel, classify, h4', if_true,
            Bool.false_eq_true, if_false, reduceIte]
          exact afterPrimary_eq code s t
    · simp only [get_exchange_rates, c1AmendedModel, classify, if_neg h]
      exact afterPrimary_eq code s t

/-- Lookup in a returned RateSet: `some v` iff the key is present
(Python `k in rates`), with `v` the stored optional value. -/
def lookupRS (rs : List (String × Option ℚ)) (k : String) : Option (Option ℚ) :=
  (rs.find? (fun kv => kv.1 == k)).map (fun kv => kv.2)

/-- Python truthiness of one stored rate value: `None` and `0.0` are
falsy, every other number (negative included) is truthy. -/
def truthyRate : Option ℚ → Bool
  | none => false
  | some q => decide (q ≠ 0)

/-- The display guard on the direct RateSet (src/streamlit_app.py line
281): `rates and any(rates.values())`. -/
def ratesUsable (rs : List (String × Option ℚ)) : Bool :=
  decide (rs ≠ []) && rs.any (fun kv => truthyRate kv.2)

/-- One derived target in the inversion fallback (lines 301-309): the
target key must be present with a truthy value; the quotient by the
base rate is emitted, in particular for a negative stored rate. -/
def invTarget (usdRates : List (String × Option ℚ)) (tgt : String) (base : ℚ) :
    List (String × ℚ) :=
  match lookupRS usdRates tgt with
  | some (some e) => if e ≠ 0 then [(tgt, e / base)] else []
  | _ => []

/-- The caller-side inversion fallback (src/streamlit_app.py lines
288-315): it requires the requested code to be a key of the USD-based
RateSet with a truthy positive value, then derives requested→USD as the
reciprocal and, target by target, requested→{EUR,GBP,INR}; any failed
precondition yields no derived rates (a warning in the source). -/
def inversionFallback (code : String) (usdRates : List (String × Option ℚ)) :
    List (String × ℚ) :=
  match lookupRS usdRates code with
  | none => []
  | some none => []
  | some (some v) =>
    if v ≠ 0 ∧ 0 < v then
      [("USD", 1 / v)] ++ invTarget usdRates "EUR" v ++
        invTarget usdRates "GBP" v ++ invTarget usdRates "INR" v
    else []

/-- The main flow's rate display step (lines 281-315): the direct
RateSet when usable, otherwise the derived rates of the inversion
fallback computed from a fresh USD-based resolution. -/
def rateDisplay (code : String) (direct : List (String × Option ℚ))
    (up us ut : FxOutcome) : List (String × Option ℚ) ⊕ List (String × ℚ) :=
  if ratesUsable direct then Sum.inl direct
  else Sum.inr (inversionFallback code (get_exchange_rates "USD" up us ut))

theorem gxr_shape (code : String) (p s t : FxOutcome) :
    get_exchange_rates code p s t = [] ∨
    (∃ r, get_exchange_rates code p s t = fxPick r) ∨
    (∃ r, get_exchange_rates code p s t = usdSynth r) := by
  unfold get_exchange_rates afterPrimary afterSecondary
  repeat' split
  all_goals first
    | exact Or.inl rfl
    | exact Or.inr (Or.inl ⟨_, rfl⟩)
    | exact Or.inr (Or.inr ⟨_, rfl⟩)

theorem lookupRS_fxPick_none (r : List (String × ℚ)) (k : String)
    (h : k ≠ "USD" ∧ k ≠ "INR" ∧ k ≠ "GBP" ∧ k ≠ "EUR") :
    lookupRS (fxPick r) k = none := by
  obtain ⟨h1, h2, h3, h4⟩ := h
  have hb1 : (("USD" : String) == k) = false := beq_eq_false_iff_ne.mpr (Ne.symm h1)
  have hb2 : (("INR" : String) == k) = false := beq_eq_false_iff_ne.mpr (Ne.symm h2)
  have hb3 : (("GBP" : String) == k) = false := beq_eq_false_iff_ne.mpr (Ne.symm h3)
  have hb4 : (("EUR" : String) == k) = false := beq_eq_false_iff_ne.mpr (Ne.symm h4)
  simp [lookupRS, fxPick, List.find?, hb1, hb2, hb3, hb4]

theorem lookupRS_usdSynth_none (r : List (String × ℚ)) (k : String)
    (h : k ≠ "USD" ∧ k ≠ "INR" ∧ k ≠ "GBP" ∧ k ≠ "EUR") :
    lookupRS (usdSynth r) k = none := by
  obtain ⟨h1, h2, h3, h4⟩ := h
  have hb1 : (("USD" : String) == k) = false := beq_eq_false_iff_ne.mpr (Ne.symm h1)
  have hb2 : (("INR" : String) == k) = false := beq_eq_false_iff_ne.mpr (Ne.symm h2)
  have hb3 : (("GBP" : String) == k) = false := beq_eq_false_iff_ne.mpr (Ne.symm h3)
  have hb4 : (("EUR" : String) == k) = false := beq_eq_false_iff_ne.mpr (Ne.symm h4)
  simp [lookupRS, usdSynth, List.find?, hb1, hb2, hb3, hb4]

theorem gxr_lookup_none (code : String) (p s t : FxOutcome) (k : String)
    (h : k ≠ "USD" ∧ k ≠ "INR" ∧ k ≠ "GBP" ∧ k ≠ "EUR") :
    lookupRS (get_exchange_rates code p s t) k = none := by
  rcases gxr_shape code p s t with h0 | ⟨r, hr⟩ | ⟨r, hr⟩
  · rw [h0]; rfl
  · rw [hr]; exact lookupRS_fxPick_none r k h
  · rw [hr]; exact lookupRS_usdSynth_none r k h

/-- C3: the code evaluated on the claim's own scenario. The USD-based
RateSet returned by `get_exchange_rates "USD"` only ever carries the
keys USD/INR/GBP/EUR, so for any requested code outside those four
(e.g. JPY) the guard `currency_code in usd_rates` fails and the
caller-side fallback derives nothing, whatever the providers answer —
contradicting the claimed derivation rate(requested→X) =
rate(USD→X)/rate(USD→requested). -/
theorem c3_fallback_derives_nothing (code : String)
    (direct : List (String × Option ℚ)) (up us ut : FxOutcome)
    (hd : ratesUsable direct = false)
    (h : code ≠ "USD" ∧ code ≠ "INR" ∧ code ≠ "GBP" ∧ code ≠ "EUR") :
    rateDisplay code direct up us ut = Sum.inr [] := by
  unfold rateDisplay
  rw [if_neg (by rw [hd]; exact Bool.false_ne_true)]
  unfold inversionFallback
  rw [gxr_lookup_none "USD" up us ut code h]

theorem c3_fallback_derives_nothing_witness :
    rateDisplay "JPY" []
      (FxOutcome.resp 200
        (Except.ok [("USD", 1), ("INR", 83), ("GBP", 1), ("EUR", 1)]))
      FxOutcome.exc FxOutcome.exc = Sum.inr [] :=
  c3_fallback_derives_nothing "JPY" [] _ _ _ (by decide)
    ⟨by decide, by decide, by decide, by decide⟩

/-- The characters of the opening markdown fence in the regex of
`ask_gemini` (the literal "```json" followed by a newline). -/
def fenceOpen : List Char :=
  ['`', '`', '`', 'j', 's', 'o', 'n', '\n']

/-- The characters of the closing fence (a newline followed by "```"). -/
def fenceClose : List Char :=
  ['\n', '`', '`', '`']

/-- Split at the first occurrence of the closing fence: `some content`
with `content` everything before that occurrence — the lazy group of
the regex — or `none` when the closing fence never occurs. -/
def closeSplit : List Char → Option (List Char)
  | [] => none
  | c :: rest =>
    if hasPre fenceClose (c :: rest) then some []
    else (closeSplit rest).map (fun cs => c :: cs)

/-- Leftmost match of the fence pattern of `ask_gemini` (line 72,
`re.search` with DOTALL): the first position where the opening fence
occurs and a closing fence follows yields the lazily matched content. -/
def fenceFind : List Char → Option (List Char)
  | [] => none
  | c :: rest =>
    if hasPre fenceOpen (c :: rest) then
      match closeSplit ((c :: rest).drop fenceOpen.length) with
      | some content => some content
      | none => fenceFind rest
    else fenceFind rest

/-- JSON-candidate extraction of `ask_gemini` (src/streamlit_app.py
lines 69-76): the first code-fenced block when the pattern matches,
else the whole response text. -/
def extractJson (text : String) : String :=
  match fenceFind text.data with
  | some cs => List.asString cs
  | none => text

/-- Outcome of the generative-model call in `ask_gemini`: a raised
transport/HTTP/shape error carrying its message, or the extracted
response text. -/
inductive LlmOutcome where
  | exc : String → LlmOutcome
  | ok : String → LlmOutcome

/-- `ask_gemini` (src/streamlit_app.py lines 23-87), with the HTTP call
passed in as an outcome and the JSON parser as a function: a raised
error returns `(none, error text)`; otherwise the JSON candidate is
extracted and a parse failure degrades to `(none, raw text)` while a
parse success gives `(some value, raw text)`. -/
def ask_gemini {α : Type} (parse : String → Option α) (o : LlmOutcome) :
    Option α × String :=
  match o with
  | .exc m => (none, "Error: " ++ m)
  | .ok text =>
    match parse (extractJson text) with
    | some v => (some v, text)
    | none => (none, text)

/-- C2: the second component of `ask_gemini`'s result is always the raw
model text, or the error text on a raised transport failure; and when
the extracted JSON candidate fails to parse the extractor returns
`(none, raw text)` — nothing is raised to the caller. -/
theorem c2_ask_gemini {α : Type} (parse : String → Option α) (o : LlmOutcome) :
    (∀ t, o = LlmOutcome.ok t → (ask_gemini parse o).2 = t) ∧
    (∀ m, o = LlmOutcome.exc m → (ask_gemini parse o).2 = "Error: " ++ m) ∧
    (∀ t, o = LlmOutcome.ok t → parse (extractJson t) = none →
        ask_gemini parse o = (none, t)) := by
  refine ⟨?_, ?_, ?_⟩
  · rintro t rfl
    show (match parse (extractJson t) with
      | some v => (some v, t)
      | none => (none, t)).2 = t
    cases parse (extractJson t) <;> rfl
  · rintro m rfl
    rfl
  · rintro t rfl hp
    show (match parse (extractJson t) with
      | some v => (some v, t)
      | none => (none, t)) = (none, t)
    rw [hp]

/-- A concrete toy parser used by witnesses: accepts exactly "0"
(a valid JSON text). -/
def parseZero (s : String) : Option Nat :=
  if s = "0" then some 0 else none

theorem c2_ask_gemini_witness :
    ask_gemini parseZero (LlmOutcome.ok "x") = (none, "x") :=
  (c2_ask_gemini parseZero (LlmOutcome.ok "x")).2.2 "x" rfl (by decide)

theorem hasPre_append_self (xs ys : List Char) : hasPre xs (xs ++ ys) = true := by
  induction xs with
  | nil => rfl
  | cons c cs ih => simp [hasPre, ih]

theorem hasPre_append_of_le (needle hay ex : List Char)
    (h : needle.length ≤ hay.length) :
    hasPre needle (hay ++ ex) = hasPre needle hay := by
  induction needle generalizing hay with
  | nil => rfl
  | cons n ns ih =>
    cases hay with
    | nil => simp at h
    | cons a as =>
      show (n == a && hasPre ns (as ++ ex)) = (n == a && hasPre ns as)
      rw [ih as (by simpa using h)]

theorem hasPre_fenceClose_straddle (c : Char) (rest : List Char)
    (hlen : rest.length ≤ 2) :
    hasPre fenceClose ((c :: rest) ++ fenceClose) = false := by
  rcases rest with _ | ⟨a, _ | ⟨b, _ | ⟨d, tail⟩⟩⟩
  · simp [fenceClose, hasPre]
  · simp [fenceClose, hasPre]
  · simp [fenceClose, hasPre]
  · simp at hlen

theorem closeSplit_append (xs : List Char) (h : hasSub fenceClose xs = false) :
    closeSplit (xs ++ fenceClose) = some xs := by
  induction xs with
  | nil => decide
  | cons c rest ih =>
    have h1 : hasPre fenceClose (c :: rest) = false ∧ hasSub fenceClose rest = false := by
      simpa [hasSub, Bool.or_eq_false_iff] using h
    have hneg : hasPre fenceClose ((c :: rest) ++ fenceClose) = false := by
      by_cases hlen : rest.length ≤ 2
      · exact hasPre_fenceClose_straddle c rest hlen
      · rw [hasPre_append_of_le _ _ _ (by simp [fenceClose]; omega)]
        exact h1.1
    show closeSplit (c :: (rest ++ fenceClose)) = some (c :: rest)
    unfold closeSplit
    rw [if_neg (by rw [show ((c :: rest) ++ fenceClose : List Char) =
      c :: (rest ++ fenceClose) from rfl] at hneg; rw [hneg]; exact Bool.false_ne_true)]
    rw [ih h1.2]
    rfl

theorem fenceFind_none (xs : List Char) (h : hasSub fenceOpen xs = false) :
    fenceFind xs = none := by
  induction xs with
  | nil => rfl
  | cons c rest ih =>
    have h1 : hasPre fenceOpen (c :: rest) = false ∧ hasSub fenceOpen rest = false := by
      simpa [hasSub, Bool.or_eq_false_iff] using h
    unfold fenceFind
    rw [if_neg (by rw [h1.1]; exact Bool.false_ne_true)]
    exact ih h1.2

theorem fenceFind_wrapped (J : List Char) (hc : hasSub fenceClose J = false) :
    fenceFind (fenceOpen ++ (J ++ fenceClose)) = some J := by
  show fenceFind ('`' :: (['`', '`', 'j', 's', 'o', 'n', '\n'] ++ (J ++ fenceClose))) = some J
  unfold fenceFind
  rw [if_pos ?hpre]
  case hpre =>
    have h := hasPre_append_self fenceOpen (J ++ fenceClose)
    simp only [fenceOpen, List.cons_append] at h ⊢
    exact h
  have hdrop :
      ('`' :: (['`', '`', 'j', 's', 'o', 'n', '\n'] ++ (J ++ fenceClose))).drop
        fenceOpen.length = J ++ fenceClose := by
    have h := List.drop_left fenceOpen (J ++ fenceClose)
    simp only [fenceOpen, List.cons_append] at h ⊢
    exact h
  rw [hdrop, closeSplit_append J hc]

theorem asString_data (s : String) : List.asString s.data = s := rfl

/-- C7: for every JSON text containing neither fence marker (true of
any strict JSON text, which cannot carry a raw newline inside a string
or backticks between tokens), a model response wrapping it in a
```json code fence extracts and parses to the same structured value as
a response whose entire text is the JSON unwrapped. -/
theorem c7_fenced_json {α : Type} (parse : String → Option α) (J : String) (v : α)
    (hv : parse J = some v)
    (ho : hasSub fenceOpen J.data = false)
    (hc : hasSub fenceClose J.data = false) :
    (ask_gemini parse (LlmOutcome.ok ("```json\n" ++ J ++ "\n```"))).1 = some v ∧
    (ask_gemini parse (LlmOutcome.ok J)).1 = some v := by
  have hwrap : extractJson ("```json\n" ++ J ++ "\n```") = J := by
    unfold extractJson
    have hdata : ("```json\n" ++ J ++ "\n```").data =
        fenceOpen ++ (J.data ++ fenceClose) := by
      rw [String.data_append, String.data_append]
      rw [show ("```json\n" : String).data = fenceOpen from rfl,
        show ("\n```" : String).data = fenceClose from rfl]
      rw [List.append_assoc]
    rw [hdata, fenceFind_wrapped J.data hc]
    exact asString_data J
  have hplain : extractJson J = J := by
    unfold extractJson
    rw [fenceFind_none J.data ho]
  constructor
  · show (match parse (extractJson ("```json\n" ++ J ++ "\n```")) with
      | some w => (some w, ("```json\n" ++ J ++ "\n```"))
      | none => (none, ("```json\n" ++ J ++ "\n```"))).1 = some v
    rw [hwrap, hv]
  · show (match parse (extractJson J) with
      | some w => (some w, J)
      | none => (none, J)).1 = some v
    rw [hplain, hv]

theorem c7_fenced_json_witness :
    (ask_gemini parseZero (LlmOutcome.ok ("```json\n" ++ "0" ++ "\n```"))).1 = some 0 ∧
    (ask_gemini parseZero (LlmOutcome.ok "0")).1 = some 0 :=
  c7_fenced_json parseZero "0" 0 (by decide) (by decide) (by decide)

/-- A displayed index value: a numeric price or a sentinel/error text. -/
inductive IdxVal where
  | num : ℚ → IdxVal
  | txt : String → IdxVal
deriving DecidableEq

/-- One market-data lookup outcome: a raised error carrying its
message, or the optional current-price field of the ticker info. -/
inductive FetchResult where
  | exc : String → FetchResult
  | ok : Option ℚ → FetchResult

/-- One index entry as consumed by `get_stock_index_values` (lines
154-155): both JSON fields may be absent, mirrored by `.get` defaults
at the use sites. -/
structure IndexRef where
  name : Option String
  symbol : Option String
deriving DecidableEq

/-- The value recorded for one fetched symbol (src/streamlit_app.py
lines 192-200): a truthy price is shown, a missing or zero price
becomes "Data unavailable", a raised error becomes its message
truncated to 50 characters. -/
def fetchEntry (fetch : String → FetchResult) (yfSymbol : String) : IdxVal :=
  match fetch yfSymbol with
  | .exc m => .txt ("Error: " ++ List.asString (m.data.take 50) ++ "...")
  | .ok none => .txt "Data unavailable"
  | .ok (some p) => if p ≠ 0 then .num p else .txt "Data unavailable"

/-- `get_stock_index_values` (src/streamlit_app.py lines 149-202),
instrumented: returns the sequence of (display name, value)
assignments in iteration order together with the list of ticker
symbols actually fetched.  (In the Python dict a later duplicate
display name would overwrite an earlier assignment; the assignment
events themselves are modelled here.) -/
def get_stock_index_values (fetch : String → FetchResult) :
    List IndexRef → List (String × IdxVal) × List String
  | [] => ([], [])
  | idx :: rest =>
    let name := idx.name.getD "Unknown Index"
    let symbol := idx.symbol.getD ""
    let prev := get_stock_index_values fetch rest
    if symbol = "" then
      ((name, IdxVal.txt "No symbol available") :: prev.1, prev.2)
    else
      ((name, fetchEntry fetch (guess_ticker_symbol name symbol)) :: prev.1,
        guess_ticker_symbol name symbol :: prev.2)

theorem gsiv_calls (fetch : String → FetchResult) (idxs : List IndexRef) :
    (get_stock_index_values fetch idxs).2 =
      (idxs.filter (fun x => !(x.symbol.getD "" == ""))).map
        (fun x => guess_ticker_symbol (x.name.getD "Unknown Index") (x.symbol.getD "")) := by
  induction idxs with
  | nil => rfl
  | cons idx rest ih =>
    by_cases hs : idx.symbol.getD "" = ""
    · simp [get_stock_index_values, List.filter_cons, hs, ih]
    · simp [get_stock_index_values, List.filter_cons, hs, ih]

theorem gsiv_pairs (fetch : String → FetchResult) :
    ∀ (idxs : List IndexRef) (i : Nat) (idx : IndexRef),
      idxs[i]? = some idx → idx.symbol.getD "" = "" →
      ((get_stock_index_values fetch idxs).1)[i]? =
        some (idx.name.getD "Unknown Index", IdxVal.txt "No symbol available")
  | [], i, idx, hi, _ => by simp at hi
  | a :: rest, 0, idx, hi, hs => by
    simp only [List.getElem?_cons_zero, Option.some_inj] at hi
    subst hi
    simp [get_stock_index_values, hs]
  | a :: rest, n + 1, idx, hi, hs => by
    simp only [List.getElem?_cons_succ] at hi
    have hrec := gsiv_pairs fetch rest n idx hi hs
    by_cases hsa : a.symbol.getD "" = "" <;>
      simp [get_stock_index_values, hsa, hrec]

/-- C8: an index entry whose symbol is empty is recorded as the literal
string "No symbol available" under its display name (for every provider
behaviour, so the recorded value does not depend on the market-data
provider), and the list of symbols actually fetched comes exactly from
the entries with a non-empty symbol — no call is made for the empty
one. -/
theorem c8_no_symbol (fetch : String → FetchResult) (idxs : List IndexRef)
    (i : Nat) (idx : IndexRef) (hi : idxs[i]? = some idx)
    (hs : idx.symbol.getD "" = "") :
    ((get_stock_index_values fetch idxs).1)[i]? =
      some (idx.name.getD "Unknown Index", IdxVal.txt "No symbol available") ∧
    (get_stock_index_values fetch idxs).2 =
      (idxs.filter (fun x => !(x.symbol.getD "" == ""))).map
        (fun x => guess_ticker_symbol (x.name.getD "Unknown Index") (x.symbol.getD "")) :=
  ⟨gsiv_pairs fetch idxs i idx hi hs, gsiv_calls fetch idxs⟩

theorem c8_no_symbol_witness :
    ((get_stock_index_values (fun _ => FetchResult.exc "boom")
        [⟨some "A", some ""⟩]).1)[0]? =
      some ("A", IdxVal.txt "No symbol available") ∧
    (get_stock_index_values (fun _ => FetchResult.exc "boom")
        [⟨some "A", some ""⟩]).2 = [] := by
  have h := c8_no_symbol (fun _ => FetchResult.exc "boom")
    [⟨some "A", some ""⟩] 0 ⟨some "A", some ""⟩ rfl rfl
  exact ⟨h.1, by rw [h.2]; rfl⟩

/-- C10: a provider response whose current-price field is present but
equal to 0 is recorded as "Data unavailable", indistinguishable from a
response carrying no price at all — the price is tested for
truthiness, not presence. -/
theorem c10_zero_price (yfSymbol : String) :
    fetchEntry (fun _ => FetchResult.ok (some 0)) yfSymbol =
      IdxVal.txt "Data unavailable" ∧
    fetchEntry (fun _ => FetchResult.ok (some 0)) yfSymbol =
      fetchEntry (fun _ => FetchResult.ok none) yfSymbol := by
  constructor <;> simp [fetchEntry]

/-- One geocoding result item: coordinates and formatted address of the
first match. -/
structure GeoItem where
  lat : ℚ
  lng : ℚ
  formatted_address : String
deriving DecidableEq

/-- The parsed geocoding response body: a status string and the result
items. -/
structure GeoData where
  status : String
  results : List GeoItem
deriving DecidableEq

/-- Outcome of the geocoding HTTP call: a raised transport/parse error
with its message, or a parsed response body. -/
inductive GeoOutcome where
  | exc : String → GeoOutcome
  | ok : GeoData → GeoOutcome

/-- The map link built on the OK path of `get_maps_link` (line 236)
from the first result's coordinates. -/
def mapsLink (lat lng : ℚ) : String :=
  "https://www.google.com/maps?q=" ++ toString lat ++ "," ++ toString lng

/-- `get_maps_link` (src/streamlit_app.py lines 225-243): all-absent
tuple on a raised error or a non-OK status (an OK status with an empty
result list raises an index error caught by the same handler); on OK
with a first result, the link, coordinates and formatted address. -/
def get_maps_link : GeoOutcome → Option String × Option ℚ × Option ℚ × Option String
  | .exc _ => (none, none, none, none)
  | .ok d =>
    if d.status = "OK" then
      match d.results with
      | [] => (none, none, none, none)
      | r :: _ =>
        (some (mapsLink r.lat r.lng), some r.lat, some r.lng,
          some r.formatted_address)
    else (none, none, none, none)

/-- C9: the location resolver returns the all-absent tuple on a raised
transport failure and on any non-OK provider status (e.g.
"ZERO_RESULTS"), never raising; on an OK status with a first result it
returns the map link built from that result's coordinates together
with lat, lng and the formatted address. -/
theorem c9_get_maps_link (o : GeoOutcome) :
    (∀ m, o = GeoOutcome.exc m → get_maps_link o = (none, none, none, none)) ∧
    (∀ d, o = GeoOutcome.ok d → d.status ≠ "OK" →
        get_maps_link o = (none, none, none, none)) ∧
    (∀ d r rs, o = GeoOutcome.ok d → d.status = "OK" → d.results = r :: rs →
        get_maps_link o =
          (some (mapsLink r.lat r.lng), some r.lat, some r.lng,
            some r.formatted_address)) := by
  refine ⟨?_, ?_, ?_⟩
  · rintro m rfl
    rfl
  · rintro d rfl hst
    show (if d.status = "OK" then _ else (none, none, none, none)) = _
    rw [if_neg hst]
  · rintro d r rs rfl hst hres
    show (if d.status = "OK" then
      match d.results with
      | [] => (none, none, none, none)
      | r :: _ =>
        (some (mapsLink r.lat r.lng), some r.lat, some r.lng,
          some r.formatted_address)
      else (none, none, none, none)) = _
    rw [if_pos hst, hres]

theorem c9_get_maps_link_witness :
    get_maps_link (GeoOutcome.ok ⟨"OK", [⟨1, 2, "addr"⟩]⟩) =
      (some (mapsLink 1 2), some 1, some 2, some "addr") :=
  (c9_get_maps_link (GeoOutcome.ok ⟨"OK", [⟨1, 2, "addr"⟩]⟩)).2.2
    ⟨"OK", [⟨1, 2, "addr"⟩]⟩ ⟨1, 2, "addr"⟩ [] rfl rfl rfl
